import Mathlib

/-!
Verification development for the WooCommerce CDK storefront infrastructure
(three stack variants: gateway+function, gateway+function+pipeline,
container-service+pipeline).

The stacks are declarative: each one wires storage tables to compute units
(granting read-write data access per wiring), builds an edge distribution
with per-path routing/caching rules, and (in the CI/CD variants) declares a
three-stage Source/Build/Deploy pipeline with an ordered build-phase list.

This file embeds those declarations shallowly: the dependency graph of each
stack becomes explicit edge lists, the per-edge grant calls become a
derivation function over such graphs, the distribution behaviors become
routing-rule lists, and the pipeline/build-spec become a small state machine
and a phase-execution function.
-/

/-- Abstract read-write data actions emitted for a `reads_writes` edge.
Abstraction of the table `grantReadWriteData` calls
(cdk-woocommerce-stack.ts lines 74-76, cdk-woocommerce-cicd-stack.ts
lines 90-92): read actions (get, query, scan) and write actions
(put, update, delete) on the table. -/
def rwActions : List String := ["get", "put", "update", "delete", "query", "scan"]

/-- Abstract image-registry pull/push actions.
Modelled from the spec: the body of the library call `grantPullPush`
(cdk-woocommerce-cicd-stack.ts line 215) is not in this repository; the spec
describes its effect as granting pull and push scoped to the repository. -/
def ecrPullPushActions : List String := ["pull", "push"]

/-- The extra registry actions added by the explicit `addToRolePolicy`
statement (cdk-woocommerce-cicd-stack.ts lines 216-219), which names
ecr:GetDownloadUrlForLayer, ecr:BatchGetImage, ecr:CompleteLayerUpload
scoped to the repository ARN; written here with the abstract action names. -/
def ecrExtraActions : List String := ["get-download-url", "batch-get-image", "complete-layer-upload"]

/-- One grant statement: a principal, a list of actions, and the single
resource identifier the actions are scoped to. -/
structure GrantStatement where
  principal : String
  actions : List String
  resource : String
deriving DecidableEq, Repr

/-- The resource graph read by the derivation engines: `readsWrites` edges
from compute-unit identities to tables, and `triggersEcr` edges from build
identities to image repositories. -/
structure Graph where
  readsWrites : List (String × String)
  triggersEcr : List (String × String)
deriving Repr

/-- The grant statement emitted for one `reads_writes` edge: the compute
unit's execution identity gets the read-write data actions on exactly that
table's resource identifier (one `grantReadWriteData` call per wiring). -/
def rwGrant (e : String × String) : GrantStatement :=
  { principal := e.1, actions := rwActions, resource := e.2 }

/-- The grant statements emitted for the `triggers` edges to image
repositories: per edge, the pull/push grant (from `grantPullPush`) and the
explicit extra-actions policy statement, both scoped to that repository. -/
def deriveEcr : List (String × String) → List GrantStatement
  | [] => []
  | e :: rest =>
    { principal := e.1, actions := ecrPullPushActions, resource := e.2 } ::
    { principal := e.1, actions := ecrExtraActions, resource := e.2 } ::
    deriveEcr rest

/-- Permission derivation: one read-write grant per `reads_writes` edge plus
the registry grants per `triggers` edge.  Pure function of the graph. -/
def derive (g : Graph) : List GrantStatement :=
  g.readsWrites.map rwGrant ++ deriveEcr g.triggersEcr

/-- A table declaration: logical identity and partition key name. -/
structure TableDef where
  id : String
  partitionKeyName : String
deriving DecidableEq, Repr

/-- The three tables declared by every stack variant
(ProductsTable/productId, OrdersTable/orderId, CartTable/cartId). -/
def wooTables : List TableDef :=
  [ { id := "ProductsTable", partitionKeyName := "productId" },
    { id := "OrdersTable", partitionKeyName := "orderId" },
    { id := "CartTable", partitionKeyName := "cartId" } ]

/-- Resource graph of the gateway+function stack (cdk-woocommerce-stack.ts):
three functions, each wired `reads_writes` to exactly one table by the three
`grantReadWriteData` calls; no image repository. -/
def wooGraph : Graph :=
  { readsWrites :=
      [ ("ProductsFunction", "ProductsTable"),
        ("OrdersFunction", "OrdersTable"),
        ("CartFunction", "CartTable") ],
    triggersEcr := [] }

/-- Resource graph of the gateway+function+pipeline stack
(cdk-woocommerce/lib/cdk-woocommerce-cicd-stack.ts): the same three function
wirings plus the build project's `triggers` edge to the image repository. -/
def wooCicdGraph : Graph :=
  { readsWrites :=
      [ ("ProductsFunction", "ProductsTable"),
        ("OrdersFunction", "OrdersTable"),
        ("CartFunction", "CartTable") ],
    triggersEcr := [("BuildProjectRole", "WooCommerceRepoArn")] }

/-- Resource graph of the container-service+pipeline stack
(cdk-woocommerce-cicd/lib/cdk-woocommerce-cicd-stack.ts): the single task
role is wired `reads_writes` to all three tables (lines 90-92), and the
build project holds the `triggers` edge to the image repository. -/
def cicdGraph : Graph :=
  { readsWrites :=
      [ ("WooCommerceTaskRole", "ProductsTable"),
        ("WooCommerceTaskRole", "OrdersTable"),
        ("WooCommerceTaskRole", "CartTable") ],
    triggersEcr := [("BuildProjectRole", "WooCommerceRepoArn")] }

/-- Cache policies named by the distribution behaviors. -/
inductive CachePolicy
  | optimized
  | disabled
deriving DecidableEq, Repr

/-- Viewer protocol policies named by the distribution behaviors. -/
inductive ProtocolPolicy
  | redirectToHttps
  | httpsOnly
deriving DecidableEq, Repr

/-- The origin a routing rule forwards matched traffic to. -/
inductive RouteOrigin
  | storageBucket
  | apiGateway
  | loadBalancer
deriving DecidableEq, Repr

/-- One routing rule of a distribution.  `cachePolicy` is an `Option`
because the default behavior of every stack sets no explicit cache policy;
only the additional `/api` behaviors assign one. -/
structure RoutingRule where
  pathPattern : String
  origin : RouteOrigin
  cachePolicy : Option CachePolicy
  protocolPolicy : ProtocolPolicy
deriving DecidableEq, Repr

/-- The three stack variants. -/
inductive Topology
  | gatewayFunction
  | gatewayFunctionPipeline
  | containerPipeline
deriving DecidableEq, Repr

/-- The `/api/products/*` behavior of the gateway-fronted stacks: gateway
origin, caching Optimized, HTTPS-only. -/
def productsRule : RoutingRule :=
  { pathPattern := "/api/products/*", origin := .apiGateway,
    cachePolicy := some .optimized, protocolPolicy := .httpsOnly }

/-- The `/api/orders/*` behavior of the gateway-fronted stacks: gateway
origin, caching Disabled, HTTPS-only. -/
def ordersRule : RoutingRule :=
  { pathPattern := "/api/orders/*", origin := .apiGateway,
    cachePolicy := some .disabled, protocolPolicy := .httpsOnly }

/-- The `/api/cart/*` behavior of the gateway-fronted stacks: gateway
origin, caching Disabled, HTTPS-only. -/
def cartRule : RoutingRule :=
  { pathPattern := "/api/cart/*", origin := .apiGateway,
    cachePolicy := some .disabled, protocolPolicy := .httpsOnly }

/-- The single `/api/*` behavior of the container stack: load-balancer
origin, caching Disabled, HTTPS-only. -/
def lbApiRule : RoutingRule :=
  { pathPattern := "/api/*", origin := .loadBalancer,
    cachePolicy := some .disabled, protocolPolicy := .httpsOnly }

/-- The per-resource additional behaviors of the two gateway-fronted stacks
(cdk-woocommerce-stack.ts lines 102-121 and the identical block of
cdk-woocommerce/lib/cdk-woocommerce-cicd-stack.ts): products is cached
Optimized, orders and cart are cached Disabled, all HTTPS-only against the
gateway origin. -/
def wooApiBehaviors : List RoutingRule :=
  [productsRule, ordersRule, cartRule]

/-- The single additional behavior of the container stack
(cdk-woocommerce-cicd-stack.ts lines 100-107): one `/api/*` rule at the
load-balancer origin, caching disabled, HTTPS-only. -/
def cicdApiBehaviors : List RoutingRule :=
  [lbApiRule]

/-- Additional (dynamic) behaviors per topology. -/
def apiBehaviorsOf : Topology → List RoutingRule
  | .gatewayFunction => wooApiBehaviors
  | .gatewayFunctionPipeline => wooApiBehaviors
  | .containerPipeline => cicdApiBehaviors

/-- The default rule of every stack: storage-bucket origin, protocol
redirect-to-HTTPS, no explicit cache policy (each stack's
`defaultBehavior` block). -/
def defaultRule : RoutingRule :=
  { pathPattern := "/*", origin := .storageBucket,
    cachePolicy := none, protocolPolicy := .redirectToHttps }

/-- The default behavior per topology (identical in all three stacks). -/
def defaultBehaviorOf : Topology → RoutingRule
  | _ => defaultRule

/-- The full ordered rule set: the additional behaviors are consulted before
the wildcard default. -/
def rulesOf (t : Topology) : List RoutingRule :=
  apiBehaviorsOf t ++ [defaultBehaviorOf t]

/-- The literal prefix a path pattern stands for: the pattern with its
trailing wildcard star removed. -/
def patternLit (pat : String) : List Char :=
  (pat.dropRight 1).data

/-- Whether a rule matches a concrete path (the pattern's literal prefix is
a prefix of the path). -/
def ruleMatches (r : RoutingRule) (p : List Char) : Bool :=
  (patternLit r.pathPattern).isPrefixOf p

/-- First-match resolution over the ordered rule set of a topology. -/
def resolve (t : Topology) (p : List Char) : Option RoutingRule :=
  (rulesOf t).find? (fun r => ruleMatches r p)

/-- The gateway resources and the methods each accepts, from the
`addResource`/`addMethod` calls (cdk-woocommerce-stack.ts lines 84-94):
products, orders and cart each accept GET and POST. -/
def wooResources : List (String × List String) :=
  [ ("products", ["GET", "POST"]),
    ("orders", ["GET", "POST"]),
    ("cart", ["GET", "POST"]) ]

/-- A method list is write-capable when it accepts a state-changing method. -/
def writeCapable (ms : List String) : Bool :=
  ms.any (fun m => m ∈ ["POST", "PUT", "DELETE", "PATCH"])

/-- The root path of the resource named `n` under the gateway,
as a concrete path. -/
def resourceRoot (n : String) : List Char :=
  ("/api/" ++ n ++ "/").data

/-- Pipeline states: the three declared stages (the `stages` list of the
`Pipeline` construct in both CI/CD stacks, stage names Source, Build,
Deploy) plus the two terminal outcomes. -/
inductive PipeState
  | source
  | build
  | deploy
  | succeeded
  | failed
deriving DecidableEq, Repr

/-- Outcome of one stage's work. -/
inductive StageOutcome
  | ok
  | fail
deriving DecidableEq, Repr

/-- The pipeline step function: each stage hands off to the next stage of
the declared Source, Build, Deploy order on success, to `failed` on
failure; the terminal states absorb. -/
def nextStage : PipeState → StageOutcome → PipeState
  | .source, .ok => .build
  | .build, .ok => .deploy
  | .deploy, .ok => .succeeded
  | .source, .fail => .failed
  | .build, .fail => .failed
  | .deploy, .fail => .failed
  | .succeeded, _ => .succeeded
  | .failed, _ => .failed

/-- Whether a state is one of the three active (non-terminal) stages. -/
def isActive : PipeState → Bool
  | .source => true
  | .build => true
  | .deploy => true
  | .succeeded => false
  | .failed => false

/-- The sequence of states an execution visits from `s` under the given
stage outcomes (including `s` itself). -/
def traceFrom : PipeState → List StageOutcome → List PipeState
  | s, [] => [s]
  | s, o :: os => s :: traceFrom (nextStage s o) os

/-- The stages still ahead of (and including) an active state, in declared
order. -/
def stagesFrom : PipeState → List PipeState
  | .source => [.source, .build, .deploy]
  | .build => [.build, .deploy]
  | .deploy => [.deploy]
  | .succeeded => []
  | .failed => []

/-- One build-spec phase: its name and its ordered command list. -/
structure BuildPhase where
  name : String
  commands : List String
deriving DecidableEq, Repr

/-- The ordered phase list of the container stack's build spec
(cdk-woocommerce-cicd-stack.ts lines 140-175): install dependencies,
authenticate to the registry, build and tag the image, push both tags and
write the image-definitions descriptor. -/
def buildPhases : List BuildPhase :=
  [ { name := "install",
      commands :=
        [ "echo \"Installing dependencies\"",
          "npm install" ] },
    { name := "pre_build",
      commands :=
        [ "echo \"Logging in to Amazon ECR\"",
          "aws ecr get-login-password --region $AWS_DEFAULT_REGION | docker login --username AWS --password-stdin $REPOSITORY_URI" ] },
    { name := "build",
      commands :=
        [ "echo \"Building Docker image\"",
          "docker build -t $REPOSITORY_URI:latest .",
          "docker tag $REPOSITORY_URI:latest $REPOSITORY_URI:$CODEBUILD_RESOLVED_SOURCE_VERSION" ] },
    { name := "post_build",
      commands :=
        [ "echo \"Pushing Docker image\"",
          "docker push $REPOSITORY_URI:latest",
          "docker push $REPOSITORY_URI:$CODEBUILD_RESOLVED_SOURCE_VERSION",
          "echo \"Writing image definitions file\"",
          "printf \x27[\x7b\"name\":\"WooCommerceContainer\",\"imageUri\":\"%s\"\x7d]\x27 $REPOSITORY_URI:$CODEBUILD_RESOLVED_SOURCE_VERSION > imagedefinitions.json" ] } ]

/-- Runs a phase list in order under a per-phase success predicate: a
successful phase contributes its commands and execution continues; the
first failing phase contributes nothing and aborts the rest.  Returns the
executed commands and whether the stage succeeded. -/
def runPhases : List BuildPhase → (String → Bool) → List String × Bool
  | [], _ => ([], true)
  | p :: rest, ok =>
    if ok p.name then
      let r := runPhases rest ok
      (p.commands ++ r.1, r.2)
    else ([], false)

/-- Index of the first failing phase (the list length when all succeed). -/
def firstFail (ps : List BuildPhase) (ok : String → Bool) : Nat :=
  ps.findIdx (fun p => !ok p.name)

/-- Every command the container build spec runs, in order. -/
def allBuildCommands : List String :=
  buildPhases.flatMap BuildPhase.commands

/-- Maps a stage's boolean success to a pipeline stage outcome. -/
def outcomeOfSuccess : Bool → StageOutcome
  | true => .ok
  | false => .fail

/-- One entry of the deployment descriptor. -/
structure ImageDef where
  name : String
  imageUri : String
deriving DecidableEq, Repr

/-- The deployment descriptor the container build writes when it succeeds,
as a function of the repository URI and the resolved source revision: the
post_build printf emits a single entry naming the WooCommerceContainer and
the revision-tagged image URI. -/
def imageDefinitions (repositoryUri revision : String) : List ImageDef :=
  [ { name := "WooCommerceContainer",
      imageUri := repositoryUri ++ ":" ++ revision } ]

/-- The container build spec's artifact file list
(cdk-woocommerce-cicd-stack.ts lines 172-174). -/
def buildArtifactFiles : List String := ["imagedefinitions.json"]

/-- Per-function environments of the gateway+function stack: each function's
`environment` block names exactly its own table
(cdk-woocommerce-stack.ts lines 46-71). -/
def wooFunctionEnv : List (String × List (String × String)) :=
  [ ("ProductsFunction", [("PRODUCTS_TABLE", "ProductsTable")]),
    ("OrdersFunction", [("ORDERS_TABLE", "OrdersTable")]),
    ("CartFunction", [("CART_TABLE", "CartTable")]) ]

/-- Per-function environments of the gateway+function+pipeline stack
(cdk-woocommerce/lib/cdk-woocommerce-cicd-stack.ts lines 46-71), identical
wiring to the plain gateway stack. -/
def wooCicdFunctionEnv : List (String × List (String × String)) :=
  [ ("ProductsFunction", [("PRODUCTS_TABLE", "ProductsTable")]),
    ("OrdersFunction", [("ORDERS_TABLE", "OrdersTable")]),
    ("CartFunction", [("CART_TABLE", "CartTable")]) ]

/-- Environment of the single container task
(cdk-woocommerce-cicd-stack.ts lines 68-76): all three table names. -/
def cicdTaskEnv : List (String × String) :=
  [ ("PRODUCTS_TABLE", "ProductsTable"),
    ("ORDERS_TABLE", "OrdersTable"),
    ("CART_TABLE", "CartTable") ]

/-- The dependency-install command of the install phase. -/
def installCmd : String := "npm install"

/-- The registry-authentication command of the pre_build phase. -/
def loginCmd : String :=
  "aws ecr get-login-password --region $AWS_DEFAULT_REGION | docker login --username AWS --password-stdin $REPOSITORY_URI"

/-- The image-build command of the build phase. -/
def buildCmd : String := "docker build -t $REPOSITORY_URI:latest ."

/-- The revision-tagging command of the build phase. -/
def tagCmd : String :=
  "docker tag $REPOSITORY_URI:latest $REPOSITORY_URI:$CODEBUILD_RESOLVED_SOURCE_VERSION"

/-- The latest-image push command of the post_build phase. -/
def pushLatestCmd : String := "docker push $REPOSITORY_URI:latest"

/-- The revision-tagged-image push command of the post_build phase. -/
def pushRevisionCmd : String :=
  "docker push $REPOSITORY_URI:$CODEBUILD_RESOLVED_SOURCE_VERSION"

/-- All actions the derived grant set gives a principal, across its
statements. -/
def grantActionsOf (g : Graph) (principal : String) : List String :=
  ((derive g).filter (fun s => s.principal == principal)).flatMap GrantStatement.actions

/-- Every statement produced for the `triggers` edges stems from one of the
edges: its principal and resource are that edge's endpoints and its actions
are one of the two registry action lists. -/
lemma mem_deriveEcr :
    ∀ (l : List (String × String)) (s : GrantStatement), s ∈ deriveEcr l →
      ∃ e ∈ l, s.principal = e.1 ∧ s.resource = e.2 ∧
        (s.actions = ecrPullPushActions ∨ s.actions = ecrExtraActions) := by
  intro l
  induction l with
  | nil => intro s hs; simp [deriveEcr] at hs
  | cons e rest ih =>
    intro s hs
    simp only [deriveEcr, List.mem_cons] at hs
    rcases hs with hs | hs | hs
    · exact ⟨e, List.mem_cons_self e rest, by simp [hs]⟩
    · exact ⟨e, List.mem_cons_self e rest, by simp [hs]⟩
    · obtain ⟨e', he', h⟩ := ih s hs
      exact ⟨e', List.mem_cons_of_mem e he', h⟩

/-- C1: for every `reads_writes` edge the derivation emits a statement
granting that compute unit the read-write data actions scoped to exactly
that table; every derived statement stems from an edge of the graph (so a
compute unit gets no grant on a table it has no edge to); and in the
three-table topology (productId, orderId, cartId keys) with three compute
units each wired to exactly one table, derivation yields exactly the three
per-table statements. -/
theorem rw_grants_scoped_per_edge :
    (∀ g : Graph, ∀ e ∈ g.readsWrites,
        rwGrant e ∈ derive g ∧ (rwGrant e).principal = e.1 ∧
        (rwGrant e).actions = rwActions ∧ (rwGrant e).resource = e.2) ∧
    (∀ g : Graph, ∀ s ∈ derive g,
        (s.principal, s.resource) ∈ g.readsWrites ∨
        (s.principal, s.resource) ∈ g.triggersEcr) ∧
    (wooTables.map TableDef.partitionKeyName = ["productId", "orderId", "cartId"]) ∧
    (derive wooGraph =
      [ { principal := "ProductsFunction", actions := rwActions, resource := "ProductsTable" },
        { principal := "OrdersFunction", actions := rwActions, resource := "OrdersTable" },
        { principal := "CartFunction", actions := rwActions, resource := "CartTable" } ]) := by
  refine ⟨?_, ?_, rfl, rfl⟩
  · intro g e he
    exact ⟨List.mem_append_left _ (List.mem_map_of_mem rwGrant he), rfl, rfl, rfl⟩
  · intro g s hs
    rcases List.mem_append.mp hs with h | h
    · obtain ⟨e, he, rfl⟩ := List.mem_map.mp h
      left
      simpa [rwGrant] using he
    · obtain ⟨e, he, h1, h2, _⟩ := mem_deriveEcr _ s h
      right
      rw [h1, h2]
      simpa using he

/-- Concrete instance of the per-edge grant facts for the products wiring of
the gateway+function topology. -/
theorem rw_grants_scoped_per_edge_witness :
    (("ProductsFunction", "ProductsTable") ∈ wooGraph.readsWrites ∧
      rwGrant ("ProductsFunction", "ProductsTable") ∈ derive wooGraph ∧
      (rwGrant ("ProductsFunction", "ProductsTable")).resource = "ProductsTable") ∧
    (((rwGrant ("ProductsFunction", "ProductsTable")).principal,
      (rwGrant ("ProductsFunction", "ProductsTable")).resource) ∈ wooGraph.readsWrites ∨
     ((rwGrant ("ProductsFunction", "ProductsTable")).principal,
      (rwGrant ("ProductsFunction", "ProductsTable")).resource) ∈ wooGraph.triggersEcr) := by
  have hmem : ("ProductsFunction", "ProductsTable") ∈ wooGraph.readsWrites := by decide
  have h1 := rw_grants_scoped_per_edge.1 wooGraph _ hmem
  exact ⟨⟨hmem, h1.1, h1.2.2.2⟩, rw_grants_scoped_per_edge.2.1 wooGraph _ h1.1⟩

/-- C5: on a successful container build with repository URI `u` and
resolved revision `r`, the artifact is the single descriptor file, the
descriptor holds exactly one entry, and that entry names the logical
container and an image URI ending in a colon followed by `r`. -/
theorem build_descriptor_single_entry :
    ∀ repositoryUri revision : String,
      buildArtifactFiles = ["imagedefinitions.json"] ∧
      (imageDefinitions repositoryUri revision).length = 1 ∧
      ∀ e ∈ imageDefinitions repositoryUri revision,
        e.name = "WooCommerceContainer" ∧
        ∃ s, e.imageUri = s ++ (":" ++ revision) := by
  intro repositoryUri revision
  refine ⟨rfl, rfl, ?_⟩
  intro e he
  simp only [imageDefinitions, List.mem_singleton] at he
  subst he
  exact ⟨rfl, repositoryUri, (String.append_assoc repositoryUri ":" revision)⟩

/-- Concrete instance of the descriptor shape for revision abc123: the
single entry's image URI ends in a colon followed by abc123. -/
theorem build_descriptor_single_entry_witness :
    ({ name := "WooCommerceContainer", imageUri := "repoUri" ++ ":" ++ "abc123" } : ImageDef)
        ∈ imageDefinitions "repoUri" "abc123" ∧
    (({ name := "WooCommerceContainer", imageUri := "repoUri" ++ ":" ++ "abc123" } : ImageDef).name
        = "WooCommerceContainer" ∧
     ∃ s, ({ name := "WooCommerceContainer", imageUri := "repoUri" ++ ":" ++ "abc123" } : ImageDef).imageUri
        = s ++ (":" ++ "abc123")) := by
  have hmem :
      ({ name := "WooCommerceContainer", imageUri := "repoUri" ++ ":" ++ "abc123" } : ImageDef)
        ∈ imageDefinitions "repoUri" "abc123" := by
    simp [imageDefinitions]
  exact ⟨hmem, (build_descriptor_single_entry "repoUri" "abc123").2.2 _ hmem⟩

/-- C6: in the container topology the engine produces exactly one dynamic
rule, `/api/*` at the load-balancer origin with caching disabled, and no
per-resource dynamic rules. -/
theorem container_single_api_rule :
    apiBehaviorsOf .containerPipeline =
      [ { pathPattern := "/api/*", origin := .loadBalancer,
          cachePolicy := some .disabled, protocolPolicy := .httpsOnly } ] ∧
    (apiBehaviorsOf .containerPipeline).all
      (fun r => !(["/api/products/*", "/api/orders/*", "/api/cart/*"].contains r.pathPattern)) = true :=
  ⟨rfl, by decide⟩

/-- C8: in every topology the default (root-path) rule has the
storage-bucket origin with protocol redirect-to-HTTPS, and every dynamic
`/api` rule is HTTPS-only. -/
theorem default_redirect_api_https_only :
    ∀ t : Topology,
      (defaultBehaviorOf t).origin = .storageBucket ∧
      (defaultBehaviorOf t).protocolPolicy = .redirectToHttps ∧
      (apiBehaviorsOf t).all (fun r => r.protocolPolicy == .httpsOnly) = true := by
  intro t
  cases t <;> exact ⟨rfl, rfl, by decide⟩

/-- C10: in each per-function topology every function's environment holds a
single variable naming exactly the table it holds a `reads_writes` edge to,
and in the container topology the single task's environment names exactly
its three wired tables; no environment names a table without an edge. -/
theorem env_names_match_edges :
    (∀ c env, (c, env) ∈ wooFunctionEnv →
        env.length = 1 ∧
        env.map Prod.snd =
          ((wooGraph.readsWrites.filter (fun e => e.1 == c)).map Prod.snd)) ∧
    (∀ c env, (c, env) ∈ wooCicdFunctionEnv →
        env.length = 1 ∧
        env.map Prod.snd =
          ((wooCicdGraph.readsWrites.filter (fun e => e.1 == c)).map Prod.snd)) ∧
    (cicdTaskEnv.length = 3 ∧
     cicdTaskEnv.map Prod.snd =
       ((cicdGraph.readsWrites.filter (fun e => e.1 == "WooCommerceTaskRole")).map Prod.snd)) := by
  refine ⟨?_, ?_, rfl, rfl⟩ <;>
    · intro c env h
      fin_cases h <;> exact ⟨rfl, rfl⟩

/-- Concrete instance of the environment/edge correspondence for the
products function of the gateway+function topology. -/
theorem env_names_match_edges_witness :
    ("ProductsFunction", [("PRODUCTS_TABLE", "ProductsTable")]) ∈ wooFunctionEnv ∧
    ([("PRODUCTS_TABLE", "ProductsTable")] : List (String × String)).map Prod.snd =
      ((wooGraph.readsWrites.filter (fun e => e.1 == "ProductsFunction")).map Prod.snd) := by
  have hmem : ("ProductsFunction", [("PRODUCTS_TABLE", "ProductsTable")]) ∈ wooFunctionEnv := by
    decide
  exact ⟨hmem, (env_names_match_edges.1 _ _ hmem).2⟩

/-- The statement built for a `reads_writes` edge determines the edge. -/
lemma rwGrant_injective : Function.Injective rwGrant := by
  intro a b hab
  simp only [rwGrant, GrantStatement.mk.injEq] at hab
  exact Prod.ext hab.1 hab.2.2

/-- Registry statements never carry the read-write data action list. -/
lemma deriveEcr_actions_ne :
    ∀ (l : List (String × String)) (s : GrantStatement), s ∈ deriveEcr l →
      s.actions ≠ rwActions := by
  intro l s hs
  obtain ⟨-, -, -, -, h | h⟩ := mem_deriveEcr l s hs <;> rw [h] <;> decide

/-- Distinct `triggers` edges yield distinct registry statements. -/
lemma nodup_deriveEcr :
    ∀ (l : List (String × String)), l.Nodup → (deriveEcr l).Nodup := by
  intro l
  induction l with
  | nil => intro _; simp [deriveEcr]
  | cons e rest ih =>
    intro h
    rw [List.nodup_cons] at h
    simp only [deriveEcr, List.nodup_cons, List.mem_cons]
    refine ⟨?_, ?_, ih h.2⟩
    · rintro (heq | hmem)
      · have : ecrPullPushActions = ecrExtraActions := congrArg GrantStatement.actions heq
        exact absurd this (by decide)
      · obtain ⟨e', he', h1, h2, -⟩ := mem_deriveEcr rest _ hmem
        exact h.1 (by rw [show e = e' from Prod.ext h1 h2]; exact he')
    · intro hmem
      obtain ⟨e', he', h1, h2, -⟩ := mem_deriveEcr rest _ hmem
      exact h.1 (by rw [show e = e' from Prod.ext h1 h2]; exact he')

/-- C9: running the derivation twice on an unchanged graph yields the same
statement set (the two runs together contain exactly the statements of one
run), and on a graph with distinct edges a single run already contains no
duplicate statement. -/
theorem derive_idempotent :
    ∀ g : Graph,
      (∀ s, s ∈ derive g ++ derive g ↔ s ∈ derive g) ∧
      (g.readsWrites.Nodup → g.triggersEcr.Nodup → (derive g).Nodup) := by
  intro g
  constructor
  · intro s
    simp [List.mem_append]
  · intro h1 h2
    rw [derive, List.nodup_append]
    refine ⟨h1.map rwGrant_injective, nodup_deriveEcr _ h2, ?_⟩
    intro s hs hs'
    obtain ⟨e, -, rfl⟩ := List.mem_map.mp hs
    exact deriveEcr_actions_ne _ _ hs' rfl

/-- Concrete instance: the gateway+function graph has distinct edges and its
derived grant list carries no duplicate statement. -/
theorem derive_idempotent_witness :
    wooGraph.readsWrites.Nodup ∧ wooGraph.triggersEcr.Nodup ∧
    (derive wooGraph).Nodup ∧
    (rwGrant ("ProductsFunction", "ProductsTable") ∈ derive wooGraph ++ derive wooGraph ↔
      rwGrant ("ProductsFunction", "ProductsTable") ∈ derive wooGraph) :=
  ⟨by decide, by decide,
   (derive_idempotent wooGraph).2 (by decide) (by decide),
   (derive_idempotent wooGraph).1 _⟩

/-- C7: in the container+pipeline topology the build identity's derived
grant set carries exactly the five registry actions (pull, push,
complete-layer-upload, get-download-url, batch-get-image), every one of its
statements is scoped to the single image repository's resource identifier,
and it receives exactly the two registry statements. -/
theorem ecr_grants_exact :
    (∀ a : String,
        a ∈ grantActionsOf cicdGraph "BuildProjectRole" ↔
        a ∈ ["pull", "push", "complete-layer-upload", "get-download-url", "batch-get-image"]) ∧
    ((derive cicdGraph).filter (fun s => s.principal == "BuildProjectRole")).all
      (fun s => s.resource == "WooCommerceRepoArn") = true ∧
    ((derive cicdGraph).filter (fun s => s.principal == "BuildProjectRole")).length = 2 := by
  refine ⟨?_, by decide, by decide⟩
  have hval : grantActionsOf cicdGraph "BuildProjectRole" =
      ["pull", "push", "get-download-url", "batch-get-image", "complete-layer-upload"] := by
    decide
  intro a
  rw [hval]
  simp only [List.mem_cons, List.not_mem_nil, or_false]
  tauto

/-- From a terminal state an execution never visits an active stage again. -/
lemma traceFrom_terminal :
    ∀ (os : List StageOutcome) (s : PipeState), isActive s = false →
      (traceFrom s os).filter isActive = [] := by
  intro os
  induction os with
  | nil =>
    intro s hs
    simp [traceFrom, hs]
  | cons o os ih =>
    intro s hs
    cases s <;> simp only [isActive] at hs <;> try exact absurd hs (by decide)
    · cases o <;> simpa [traceFrom, isActive] using ih _ (by decide)
    · cases o <;> simpa [traceFrom, isActive] using ih _ (by decide)

/-- The active stages an execution visits from any state form a prefix of
the declared stage order from that state. -/
lemma traceFrom_filter_ordered :
    ∀ (os : List StageOutcome) (s : PipeState),
      ((traceFrom s os).filter isActive) <+: stagesFrom s := by
  intro os
  induction os with
  | nil =>
    intro s
    cases s <;> simp [traceFrom, stagesFrom, isActive]
  | cons o os ih =>
    intro s
    cases s
    case source =>
      cases o
      case ok =>
        simp only [traceFrom, nextStage, List.filter, isActive, stagesFrom]
        exact List.cons_prefix_cons.mpr ⟨rfl, ih .build⟩
      case fail =>
        simp only [traceFrom, nextStage, List.filter, isActive, stagesFrom]
        rw [traceFrom_terminal os .failed (by decide)]
        exact ⟨[.build, .deploy], rfl⟩
    case build =>
      cases o
      case ok =>
        simp only [traceFrom, nextStage, List.filter, isActive, stagesFrom]
        exact List.cons_prefix_cons.mpr ⟨rfl, ih .deploy⟩
      case fail =>
        simp only [traceFrom, nextStage, List.filter, isActive, stagesFrom]
        rw [traceFrom_terminal os .failed (by decide)]
        exact ⟨[.deploy], rfl⟩
    case deploy =>
      cases o
      case ok =>
        simp only [traceFrom, nextStage, List.filter, isActive, stagesFrom]
        rw [traceFrom_terminal os .succeeded (by decide)]
      case fail =>
        simp only [traceFrom, nextStage, List.filter, isActive, stagesFrom]
        rw [traceFrom_terminal os .failed (by decide)]
    case succeeded =>
      rw [traceFrom_terminal (o :: os) .succeeded (by decide)]
      exact List.nil_prefix
    case failed =>
      rw [traceFrom_terminal (o :: os) .failed (by decide)]
      exact List.nil_prefix

/-- C3: under any outcome sequence an execution started at Source visits its
active stages as a prefix of the order Source, Build, Deploy (no stage
skipped or reordered); the Failed state absorbs every further outcome (the
execution never advances again); and a failure in any non-terminal stage
moves the execution to Failed. -/
theorem pipeline_stage_order :
    (∀ outs : List StageOutcome,
        ((traceFrom .source outs).filter isActive) <+:
          [PipeState.source, PipeState.build, PipeState.deploy]) ∧
    (∀ o, nextStage .failed o = .failed) ∧
    (nextStage .source .fail = .failed ∧ nextStage .build .fail = .failed ∧
      nextStage .deploy .fail = .failed) :=
  ⟨fun outs => traceFrom_filter_ordered outs .source,
   fun o => by cases o <;> rfl,
   rfl, rfl, rfl⟩

/-- Phase execution runs exactly the commands of the phases strictly before
the first failing phase, and succeeds exactly when every phase succeeds. -/
lemma runPhases_eq :
    ∀ (ps : List BuildPhase) (ok : String → Bool),
      runPhases ps ok =
        ((ps.take (firstFail ps ok)).flatMap BuildPhase.commands,
          ps.all (fun p => ok p.name)) := by
  intro ps
  induction ps with
  | nil => intro ok; rfl
  | cons p rest ih =>
    intro ok
    by_cases h : ok p.name = true
    · simp [runPhases, firstFail, List.findIdx_cons, h, ih ok, List.all_cons]
    · simp [runPhases, firstFail, List.findIdx_cons, h, List.all_cons,
        Bool.not_eq_true] at h ⊢

/-- C4: the container build stage declares its phases in the order install,
pre_build (registry login), build (image build then revision tag),
post_build (push latest then push revision tag); the key commands occur in
strictly that order; under any per-phase success predicate only the
commands of the phases before the first failure run (a failing phase aborts
everything after it) and the stage fails as a whole; a failed stage moves
the pipeline to Failed. -/
theorem build_phase_order_and_abort :
    (buildPhases.map BuildPhase.name = ["install", "pre_build", "build", "post_build"]) ∧
    (installCmd ∈ allBuildCommands ∧ loginCmd ∈ allBuildCommands ∧
      buildCmd ∈ allBuildCommands ∧ tagCmd ∈ allBuildCommands ∧
      pushLatestCmd ∈ allBuildCommands ∧ pushRevisionCmd ∈ allBuildCommands) ∧
    (allBuildCommands.indexOf installCmd < allBuildCommands.indexOf loginCmd ∧
      allBuildCommands.indexOf loginCmd < allBuildCommands.indexOf buildCmd ∧
      allBuildCommands.indexOf buildCmd < allBuildCommands.indexOf tagCmd ∧
      allBuildCommands.indexOf tagCmd < allBuildCommands.indexOf pushLatestCmd ∧
      allBuildCommands.indexOf pushLatestCmd < allBuildCommands.indexOf pushRevisionCmd) ∧
    (∀ ok : String → Bool,
        runPhases buildPhases ok =
          ((buildPhases.take (firstFail buildPhases ok)).flatMap BuildPhase.commands,
            buildPhases.all (fun p => ok p.name))) ∧
    (nextStage .build (outcomeOfSuccess false) = .failed) :=
  ⟨rfl, ⟨by decide, by decide, by decide, by decide, by decide, by decide⟩,
   ⟨by decide, by decide, by decide, by decide, by decide⟩,
   fun ok => runPhases_eq buildPhases ok, rfl⟩

/-- Two mutually non-prefix literals cannot both be prefixes of one path. -/
lemma isPrefixOf_excl (l1 l2 p : List Char) (h : ¬ (l1 <+: l2)) (h' : ¬ (l2 <+: l1))
    (a : l1.isPrefixOf p = true) : l2.isPrefixOf p = false := by
  rw [List.isPrefixOf_iff_prefix] at a
  cases hb : l2.isPrefixOf p with
  | false => rfl
  | true =>
    rw [List.isPrefixOf_iff_prefix] at hb
    rcases List.prefix_or_prefix_of_prefix a hb with hh | hh
    · exact absurd hh h
    · exact absurd hh h'

/-- Among the rules of any topology, two rules that both carry an assigned
cache policy and both match one concrete path agree on that policy. -/
lemma no_conflicting_cache :
    ∀ (t : Topology) (p : List Char), ∀ r1 ∈ rulesOf t, ∀ r2 ∈ rulesOf t,
      ruleMatches r1 p = true → ruleMatches r2 p = true →
      ∀ c1 c2, r1.cachePolicy = some c1 → r2.cachePolicy = some c2 → c1 = c2 := by
  intro t p r1 h1 r2 h2 m1 m2 c1 c2 e1 e2
  cases t
  case gatewayFunction =>
    simp only [rulesOf, apiBehaviorsOf, wooApiBehaviors, defaultBehaviorOf, List.cons_append,
      List.nil_append, List.mem_cons, List.not_mem_nil, or_false] at h1 h2
    rcases h1 with rfl | rfl | rfl | rfl <;> rcases h2 with rfl | rfl | rfl | rfl <;>
      first
      | (simp_all [productsRule, ordersRule, cartRule, defaultRule]; done)
      | (exfalso
         simp only [ruleMatches, productsRule, ordersRule, cartRule, patternLit] at m1 m2
         rw [List.isPrefixOf_iff_prefix] at m1 m2
         rcases List.prefix_or_prefix_of_prefix m1 m2 with hh | hh <;> revert hh <;> decide)
  case gatewayFunctionPipeline =>
    simp only [rulesOf, apiBehaviorsOf, wooApiBehaviors, defaultBehaviorOf, List.cons_append,
      List.nil_append, List.mem_cons, List.not_mem_nil, or_false] at h1 h2
    rcases h1 with rfl | rfl | rfl | rfl <;> rcases h2 with rfl | rfl | rfl | rfl <;>
      first
      | (simp_all [productsRule, ordersRule, cartRule, defaultRule]; done)
      | (exfalso
         simp only [ruleMatches, productsRule, ordersRule, cartRule, patternLit] at m1 m2
         rw [List.isPrefixOf_iff_prefix] at m1 m2
         rcases List.prefix_or_prefix_of_prefix m1 m2 with hh | hh <;> revert hh <;> decide)
  case containerPipeline =>
    simp only [rulesOf, apiBehaviorsOf, cicdApiBehaviors, defaultBehaviorOf, List.cons_append,
      List.nil_append, List.mem_cons, List.not_mem_nil, or_false] at h1 h2
    rcases h1 with rfl | rfl <;> rcases h2 with rfl | rfl <;>
      simp_all [lbApiRule, defaultRule]

/-- Every path under the products resource resolves to the products rule. -/
lemma resolve_gw_products (p : List Char)
    (hp : ("/api/products/".data).isPrefixOf p = true) :
    resolve .gatewayFunction p = some productsRule := by
  have hT : ruleMatches productsRule p = true := by
    simpa [ruleMatches, productsRule, patternLit] using hp
  show (productsRule :: ordersRule :: cartRule :: defaultRule :: []).find?
      (fun r => ruleMatches r p) = some productsRule
  simp [List.find?_cons, hT]

/-- Every path under the orders resource resolves to the orders rule. -/
lemma resolve_gw_orders (p : List Char)
    (hp : ("/api/orders/".data).isPrefixOf p = true) :
    resolve .gatewayFunction p = some ordersRule := by
  have hprodF : ruleMatches productsRule p = false := by
    have h := isPrefixOf_excl ("/api/orders/".data) ("/api/products/".data) p
      (by decide) (by decide) hp
    simpa [ruleMatches, productsRule, patternLit] using h
  have hT : ruleMatches ordersRule p = true := by
    simpa [ruleMatches, ordersRule, patternLit] using hp
  show (productsRule :: ordersRule :: cartRule :: defaultRule :: []).find?
      (fun r => ruleMatches r p) = some ordersRule
  simp [List.find?_cons, hprodF, hT]

/-- Every path under the cart resource resolves to the cart rule. -/
lemma resolve_gw_cart (p : List Char)
    (hp : ("/api/cart/".data).isPrefixOf p = true) :
    resolve .gatewayFunction p = some cartRule := by
  have hprodF : ruleMatches productsRule p = false := by
    have h := isPrefixOf_excl ("/api/cart/".data) ("/api/products/".data) p
      (by decide) (by decide) hp
    simpa [ruleMatches, productsRule, patternLit] using h
  have hordF : ruleMatches ordersRule p = false := by
    have h := isPrefixOf_excl ("/api/cart/".data) ("/api/orders/".data) p
      (by decide) (by decide) hp
    simpa [ruleMatches, ordersRule, patternLit] using h
  have hT : ruleMatches cartRule p = true := by
    simpa [ruleMatches, cartRule, patternLit] using hp
  show (productsRule :: ordersRule :: cartRule :: defaultRule :: []).find?
      (fun r => ruleMatches r p) = some cartRule
  simp [List.find?_cons, hprodF, hordF, hT]

/-- In the container topology every /api path resolves to the single
load-balancer rule. -/
lemma resolve_ct_api (p : List Char)
    (hp : ("/api/".data).isPrefixOf p = true) :
    resolve .containerPipeline p = some lbApiRule := by
  have hT : ruleMatches lbApiRule p = true := by
    simpa [ruleMatches, lbApiRule, patternLit] using hp
  show (lbApiRule :: defaultRule :: []).find? (fun r => ruleMatches r p) = some lbApiRule
  simp [List.find?_cons, hT]

/-- C2 counterexample: the products resource accepts POST, so it is a
write-capable endpoint, yet its traffic resolves to the caching-Optimized
rule rather than a Disabled one. -/
theorem products_post_cached_counterexample :
    ("products", ["GET", "POST"]) ∈ wooResources ∧
    writeCapable ["GET", "POST"] = true ∧
    resolve .gatewayFunction (resourceRoot "products") = some productsRule ∧
    productsRule.cachePolicy = some .optimized ∧
    some CachePolicy.optimized ≠ some CachePolicy.disabled :=
  ⟨by decide, by decide, by decide, rfl, by decide⟩

/-- C2 amended: the rule set never assigns two different cache policies to
rules matching one concrete path; every write-capable endpoint other than
the products resource (orders and cart, each accepting POST) resolves to a
rule with cache policy Disabled in both gateway topologies; the products
resource, although it accepts POST, resolves to the Optimized-cached rule;
and in the container topology every /api path resolves to the Disabled
rule. -/
theorem routing_cache_amended :
    (∀ (t : Topology) (p : List Char), ∀ r1 ∈ rulesOf t, ∀ r2 ∈ rulesOf t,
        ruleMatches r1 p = true → ruleMatches r2 p = true →
        ∀ c1 c2, r1.cachePolicy = some c1 → r2.cachePolicy = some c2 → c1 = c2) ∧
    (∀ n ms, (n, ms) ∈ wooResources → writeCapable ms = true → n ≠ "products" →
        ∀ p : List Char, (resourceRoot n).isPrefixOf p = true →
          (resolve .gatewayFunction p).map RoutingRule.cachePolicy = some (some .disabled) ∧
          (resolve .gatewayFunctionPipeline p).map RoutingRule.cachePolicy = some (some .disabled)) ∧
    (writeCapable ["GET", "POST"] = true ∧
      ∀ p : List Char, (resourceRoot "products").isPrefixOf p = true →
        (resolve .gatewayFunction p).map RoutingRule.cachePolicy = some (some .optimized)) ∧
    (∀ p : List Char, ("/api/".data).isPrefixOf p = true →
        (resolve .containerPipeline p).map RoutingRule.cachePolicy = some (some .disabled)) := by
  refine ⟨no_conflicting_cache, ?_, ⟨by decide, ?_⟩, ?_⟩
  · intro n ms h hw hne p hp
    have hpipe : resolve .gatewayFunctionPipeline p = resolve .gatewayFunction p := rfl
    simp only [wooResources, List.mem_cons, List.not_mem_nil, or_false, Prod.mk.injEq] at h
    rcases h with ⟨rfl, rfl⟩ | ⟨rfl, rfl⟩ | ⟨rfl, rfl⟩
    · exact absurd rfl hne
    · have hp' : ("/api/orders/".data).isPrefixOf p = true := hp
      rw [hpipe, resolve_gw_orders p hp']
      exact ⟨rfl, rfl⟩
    · have hp' : ("/api/cart/".data).isPrefixOf p = true := hp
      rw [hpipe, resolve_gw_cart p hp']
      exact ⟨rfl, rfl⟩
  · intro p hp
    have hp' : ("/api/products/".data).isPrefixOf p = true := hp
    rw [resolve_gw_products p hp']
    rfl
  · intro p hp
    rw [resolve_ct_api p hp]
    rfl

/-- Concrete instances of the amended routing facts: a write path under
orders resolves to Disabled, the products root resolves to Optimized, and a
container-topology /api path resolves to Disabled. -/
theorem routing_cache_amended_witness :
    (resolve .gatewayFunction ("/api/orders/1".data)).map RoutingRule.cachePolicy
        = some (some .disabled) ∧
    (resolve .gatewayFunction (resourceRoot "products")).map RoutingRule.cachePolicy
        = some (some .optimized) ∧
    (resolve .containerPipeline ("/api/cart/2".data)).map RoutingRule.cachePolicy
        = some (some .disabled) :=
  ⟨(routing_cache_amended.2.1 "orders" ["GET", "POST"] (by decide) (by decide) (by decide)
      ("/api/orders/1".data) (by decide)).1,
   routing_cache_amended.2.2.1.2 (resourceRoot "products") (by decide),
   routing_cache_amended.2.2.2 ("/api/cart/2".data) (by decide)⟩
